import Mathlib

/-!
Verification development for the semantic code-intelligence engine
(`mcp_code_intelligence`): a shallow embedding in Lean 4 of the indexing
and query pipeline, together with theorems settling the specification
claims against the code.

Python floats are modelled as rationals, Python exceptions as `Except`,
and external collaborators (vector database, parser service, git) as
explicit oracle parameters.
-/

namespace MCI

/-- Paths are modelled as project-relative POSIX strings. -/
abbrev Path := String

/-- Python exception kinds relevant to the embedded code paths. -/
inductive PyExc where
  | attributeError
  | osError
  | parsingError
  | generic
deriving DecidableEq, Repr

/-! ## ScoringService (core/services/scoring.py) -/

/-- ScoringService state: the tunable constants set in `ScoringService.__init__`
(`base_threshold` defaults to `0.3`, `boost_source_file = 0.05`,
`penalty_stale_index = 0.15`). -/
structure ScoringService where
  base_threshold : ℚ
  boost_source_file : ℚ
  penalty_stale_index : ℚ
deriving Repr

/-- Constructor defaults of `ScoringService.__init__` (base threshold `0.3`). -/
def ScoringService.default : ScoringService :=
  { base_threshold := 3/10, boost_source_file := 1/20, penalty_stale_index := 3/20 }

/-- Embedding of `ScoringService.adaptive_threshold`: an explicit override wins;
otherwise short queries (`len < 20`) get `max(0.15, base - 0.05)`, long queries
(`len > 200`) get `min(0.6, base + 0.1)`, and anything else the base. -/
def ScoringService.adaptive_threshold (s : ScoringService) (query : String)
    (override : Option ℚ) : ℚ :=
  match override with
  | some o => o
  | none =>
    let length := query.length
    if length < 20 then max (15/100) (s.base_threshold - 5/100)
    else if length > 200 then min (6/10) (s.base_threshold + 1/10)
    else s.base_threshold

/-- Threshold selection step of `SemanticSearchEngine.search`: use the caller
threshold when given, else consult the scoring service (which is constructed
with the engine base threshold and called without an override). -/
def searchThreshold (base : ℚ) (similarity_threshold : Option ℚ) (query : String) : ℚ :=
  match similarity_threshold with
  | some t => t
  | none =>
    ScoringService.adaptive_threshold
      { ScoringService.default with base_threshold := base } query none

/-- Rendering of claim C8 exactly as the specification words it, for
comparison with the source-derived `searchThreshold`. -/
def claimThresholdC8 (base : ℚ) (query : String) : ℚ :=
  if query.length < 20 then max (15/100) (base - 5/100)
  else if query.length > 200 then min (6/10) (base + 1/10)
  else base

/-! ## SemanticIndexer.remove_file (core/indexer.py lines 527-535) -/

/-- Embedding of `SemanticIndexer.remove_file`: the awaited
`database.delete_by_file` outcome is passed as an oracle; the function
returns the deleted count and maps any raised exception to `0`
(the `except Exception` arm). Totality of this definition is the
never-raises property. -/
def remove_file (deleteByFileOutcome : Except PyExc Nat) : Nat :=
  match deleteByFileOutcome with
  | .ok count => count
  | .error _ => 0

/-! ## Reranker singleton (core/services/reranker.py lines 102-112) -/

/-- Constructor state of `LazyHFReRanker.__init__` (model and tokenizer slots
start unloaded). -/
structure LazyHFReRanker where
  model_name : Option String
  device : Option String
  modelLoaded : Bool
  tokenizerLoaded : Bool
deriving DecidableEq, Repr

/-- Embedding of `get_global_reranker`: the module-level `_GLOBAL_RERANKER`
cell is the explicit state. A first call constructs `LazyHFReRanker(model_name)`
and stores it; any later call returns the stored instance unchanged. -/
def get_global_reranker (model_name : Option String)
    (globalReranker : Option LazyHFReRanker) :
    LazyHFReRanker × Option LazyHFReRanker :=
  match globalReranker with
  | none =>
    let r : LazyHFReRanker :=
      { model_name := model_name, device := none,
        modelLoaded := false, tokenizerLoaded := false }
    (r, some r)
  | some r => (r, some r)

/-! ## ONNX thread-budget environment handling (core/indexer.py lines 721-783) -/

/-- The five thread-budget environment variables written by
`_apply_onnx_thread_limits`. -/
inductive TVar where
  | omp          -- OMP_NUM_THREADS
  | openblas     -- OPENBLAS_NUM_THREADS
  | mkl          -- MKL_NUM_THREADS
  | veclib       -- VECLIB_MAXIMUM_THREADS
  | numexpr      -- NUMEXPR_NUM_THREADS
deriving DecidableEq, Repr

/-- The restriction of `os.environ` to the five thread-budget variables;
`none` models an unset variable. -/
def EnvMap := TVar → Option String

/-- Embedding of `_apply_onnx_thread_limits`: for each variable the prior
value is saved into `prev` via `os.environ.get`, and when `onnx_num_threads`
is configured the variable is overwritten with its decimal rendering.
Returns `(prev, new environment)`. -/
def apply_onnx_thread_limits (onnx_num_threads : Option Nat) (env : EnvMap) :
    EnvMap × EnvMap :=
  (fun v => env v,
   fun v =>
     match onnx_num_threads with
     | some n => some (toString n)
     | none => env v)

/-- Embedding of `_restore_onnx_thread_limits`: each saved key is popped when
its saved value was `None` and written back otherwise. -/
def restore_onnx_thread_limits (prev : EnvMap) (_env : EnvMap) : EnvMap :=
  fun v =>
    match prev v with
    | none => none          -- os.environ.pop(k, None)
    | some s => some s      -- os.environ[k] = v

/-- Sub-batch loop of `_add_chunks_with_limits`: successive
`database.add_chunks` calls (outcomes given by the oracle `dbAdd`, indexed
by call number) over slices of size `bsPred + 1`; the first raised exception
aborts the loop and propagates. -/
def addChunksLoop (dbAdd : Nat → Except PyExc Unit) (bsPred : Nat) :
    Nat → List α → Except PyExc Unit
  | _, [] => .ok ()
  | callIdx, x :: rest =>
    match dbAdd callIdx with
    | .error e => .error e
    | .ok () => addChunksLoop dbAdd bsPred (callIdx + 1) ((x :: rest).drop (bsPred + 1))
termination_by _ l => l.length
decreasing_by
  simp only [List.length_drop, List.length_cons]
  omega

/-- Embedding of `_add_chunks_with_limits` acting on the thread-budget
environment. Empty chunk lists return immediately; otherwise limits are
applied, the insertion runs (one call when the effective batch size covers
all chunks - note Python `self.embedding_batch_size or len(chunks)` treats
`0` like `None` - else the sub-batch loop), and the `finally` block restores
the saved environment on both the normal and the raising path. Returns the
overall outcome and the final environment. -/
def add_chunks_with_limits (onnx_num_threads : Option Nat)
    (embedding_batch_size : Option Nat) (chunks : List α)
    (dbAdd : Nat → Except PyExc Unit) (env : EnvMap) :
    Except PyExc Unit × EnvMap :=
  if chunks.isEmpty then (.ok (), env)
  else
    let applied := apply_onnx_thread_limits onnx_num_threads env
    let prev_env := applied.1
    let envInside := applied.2
    let batch_size :=
      match embedding_batch_size with
      | none => chunks.length
      | some 0 => chunks.length
      | some (k + 1) => k + 1
    let result :=
      if chunks.length ≤ batch_size then dbAdd 0
      else addChunksLoop dbAdd (batch_size - 1) 0 chunks
    (result, restore_onnx_thread_limits prev_env envInside)

/-! ## Search pipeline tail (core/search.py lines 248-261)

The `SearchResult` model class lives in `core/models.py`, which is not part
of the sources at hand; only the fields the search tail reads are modelled. -/

/-- Modelled from the spec: `SearchResult` (core/models.py is absent from the
sources); restricted to the fields the diversity / sort / rank stage of
`SemanticSearchEngine.search` reads or writes - `file_path`,
`similarity_score` and `rank`. -/
structure SearchResult where
  file_path : Path
  similarity_score : ℚ
  rank : Nat
deriving DecidableEq, Repr

/-- Diversity loop of `SemanticSearchEngine.search`: walk `ranked_results`
keeping a per-file counter (`file_counts`, default `0`); a result is appended
to `diverse_results` only while fewer than 3 results of its file were kept. -/
def diversityLoop (acc : List SearchResult) (file_counts : Path → Nat) :
    List SearchResult → List SearchResult
  | [] => acc
  | r :: rest =>
    let count := file_counts r.file_path
    if count < 3 then
      diversityLoop (acc ++ [r])
        (fun p => if p = r.file_path then count + 1 else file_counts p) rest
    else
      diversityLoop acc file_counts rest

/-- The diversity cap applied to the reranked result list. -/
def diversityFilter (ranked_results : List SearchResult) : List SearchResult :=
  diversityLoop [] (fun _ => 0) ranked_results

/-- Rank assignment loop `for i, result in enumerate(diverse_results):
result.rank = i + 1`, starting at index `i`. -/
def assignRanksFrom (i : Nat) : List SearchResult → List SearchResult
  | [] => []
  | r :: rest => { r with rank := i + 1 } :: assignRanksFrom (i + 1) rest

/-- Final stage of `SemanticSearchEngine.search` after the diversity cap:
`diverse_results.sort(key=similarity_score, reverse=True)` (a stable
descending sort) followed by `rank = i + 1` assignment. -/
def searchTail (ranked_results : List SearchResult) : List SearchResult :=
  let diverse := diversityFilter ranked_results
  let sorted := diverse.mergeSort (fun a b => b.similarity_score ≤ a.similarity_score)
  assignRanksFrom 0 sorted

/-! ## Chunk hierarchy (core/indexer.py lines 658-700) -/

/-- Modelled from the spec: `CodeChunk` (core/models.py is absent from the
sources). Fields restricted to those `_build_chunk_hierarchy` reads or
writes. The spec lifecycle has parse-produced chunks start with no parent,
an empty child list and unset (zero) depth, matching the source guards
`if not cls.chunk_depth` / `if not func.parent_chunk_id`, which treat the
constructor defaults as falsy. -/
structure CodeChunk where
  chunk_id : String
  chunk_type : String
  function_name : Option String
  class_name : Option String
  parent_chunk_id : Option String
  child_chunk_ids : List String
  chunk_depth : Nat
deriving DecidableEq, Repr, Inhabited

/-- Python truthiness of an optional string (`None` and the empty string are
falsy). -/
def optStrTruthy : Option String → Bool
  | none => false
  | some s => !s.isEmpty

/-- Membership test of the `class_chunks` filter in `_build_chunk_hierarchy`. -/
def isClassType (t : String) : Bool :=
  t == "class" || t == "interface" || t == "mixin"

/-- Membership test of the `function_chunks` filter in
`_build_chunk_hierarchy`. -/
def isFunctionType (t : String) : Bool :=
  t == "function" || t == "method" || t == "constructor"

/-- Index of the first class-type chunk whose `class_name` equals `name`:
the `next(c for c in class_chunks if c.class_name == func.class_name)`
lookup (chunk types and class names are never mutated, so the filtered view
coincides with a filter of the current state). -/
def findFirstClassIdx (cs : Array CodeChunk) (name : String) : Option Nat :=
  (List.range cs.size).find? (fun j =>
    isClassType (cs.getD j default).chunk_type &&
    (cs.getD j default).class_name == some name)

/-- Index of the first module-type chunk (`module_chunks[0]`). -/
def findFirstModuleIdx (cs : Array CodeChunk) : Option Nat :=
  (List.range cs.size).find? (fun j => (cs.getD j default).chunk_type == "module")

/-- One iteration of the first pass of `_build_chunk_hierarchy` for the
function chunk at index `fi`. A truthy `class_name` triggers the class
lookup: on a hit the function gets `parent_chunk_id`, `chunk_depth =
parent.chunk_depth + 1`, and its id is appended to the parent child list
unless already present. Without a truthy `class_name` the function gets
depth 1 when unset and is attached to the first module chunk when one
exists and no parent is set. -/
def processFunc (cs : Array CodeChunk) (fi : Nat) : Array CodeChunk :=
  let f := cs.getD fi default
  if optStrTruthy f.class_name then
    match f.class_name with
    | none => cs
    | some name =>
      match findFirstClassIdx cs name with
      | none => cs
      | some pj =>
        let parent := cs.getD pj default
        let cs1 := cs.modify fi (fun c =>
          { c with parent_chunk_id := some parent.chunk_id,
                   chunk_depth := parent.chunk_depth + 1 })
        if f.chunk_id ∈ parent.child_chunk_ids then cs1
        else cs1.modify pj (fun c =>
          { c with child_chunk_ids := c.child_chunk_ids ++ [f.chunk_id] })
  else
    let cs1 :=
      if f.chunk_depth = 0 then
        cs.modify fi (fun c => { c with chunk_depth := 1 })
      else cs
    match findFirstModuleIdx cs1 with
    | none => cs1
    | some mi =>
      if optStrTruthy f.parent_chunk_id then cs1
      else
        let m := cs1.getD mi default
        let cs2 := cs1.modify fi (fun c => { c with parent_chunk_id := some m.chunk_id })
        if f.chunk_id ∈ m.child_chunk_ids then cs2
        else cs2.modify mi (fun c =>
          { c with child_chunk_ids := c.child_chunk_ids ++ [f.chunk_id] })

/-- One iteration of the second pass for the class chunk at index `ci`:
depth 1 when unset, then attachment to the first module chunk when no
parent is set. -/
def processClass (cs : Array CodeChunk) (ci : Nat) : Array CodeChunk :=
  let c0 := cs.getD ci default
  let cs1 :=
    if c0.chunk_depth = 0 then
      cs.modify ci (fun c => { c with chunk_depth := 1 })
    else cs
  match findFirstModuleIdx cs1 with
  | none => cs1
  | some mi =>
    if optStrTruthy c0.parent_chunk_id then cs1
    else
      let m := cs1.getD mi default
      let cs2 := cs1.modify ci (fun c => { c with parent_chunk_id := some m.chunk_id })
      if c0.chunk_id ∈ m.child_chunk_ids then cs2
      else cs2.modify mi (fun c =>
        { c with child_chunk_ids := c.child_chunk_ids ++ [c0.chunk_id] })

/-- One iteration of the third pass: module depth forced to 0 when unset. -/
def processModule (cs : Array CodeChunk) (mi : Nat) : Array CodeChunk :=
  let m := cs.getD mi default
  if m.chunk_depth = 0 then cs.modify mi (fun c => { c with chunk_depth := 0 })
  else cs

/-- Embedding of `_build_chunk_hierarchy`: the three type-filtered index
lists are fixed up front (chunk types are never mutated) and each pass folds
its per-chunk mutation over the shared chunk array. -/
def buildChunkHierarchy (chunks : Array CodeChunk) : Array CodeChunk :=
  if chunks.isEmpty then chunks
  else
    let funcIdxs := (List.range chunks.size).filter (fun i =>
      isFunctionType (chunks.getD i default).chunk_type)
    let classIdxs := (List.range chunks.size).filter (fun i =>
      isClassType (chunks.getD i default).chunk_type)
    let moduleIdxs := (List.range chunks.size).filter (fun i =>
      (chunks.getD i default).chunk_type == "module")
    let cs1 := funcIdxs.foldl processFunc chunks
    let cs2 := classIdxs.foldl processClass cs1
    moduleIdxs.foldl processModule cs2

/-! ## Index metadata manifest (core/indexer.py lines 341-373, 434-466) -/

/-- JSON value stored per path in the manifest `file_metadata` map. The
legacy schema is a `{"mtime": float, "hash": str}` object (`obj`); the save
paths of the current code write the bare `os.path.getmtime` float (`num`). -/
inductive MetaVal where
  | num (mtime : ℚ)
  | obj (mtime : ℚ) (hash : String)
deriving DecidableEq, Repr

/-- Manifest content: an insertion-ordered association list mirroring a
Python dict keyed by path. -/
abbrev Manifest := List (Path × MetaVal)

/-- Python dict read `metadata.get(path)` / `metadata[path]`. -/
def lookupMeta (p : Path) (md : Manifest) : Option MetaVal :=
  (md.find? (fun e => e.1 == p)).map (·.2)

/-- Python dict write `metadata[path] = v`: in-place update of an existing
key, append of a fresh one. -/
def setMeta (p : Path) (v : MetaVal) (md : Manifest) : Manifest :=
  if (md.find? (fun e => e.1 == p)).isSome then
    md.map (fun e => if e.1 == p then (e.1, v) else e)
  else md ++ [(p, v)]

/-- State of `index_metadata.json` on disk: `none` when absent, otherwise
the `file_metadata` map of the saved document (the `index_version` and
`indexed_at` header fields are written but never read back by
`_load_index_metadata`). -/
abbrev MetaDisk := Option Manifest

/-- Embedding of `_load_index_metadata` on files written by
`_save_index_metadata`: an absent file yields `{}`; a present one always
carries the `file_metadata` key, whose map is returned unchanged (the
`file_mtimes` and bare-dict legacy branches are unreachable for files this
code writes). -/
def load_index_metadata (disk : MetaDisk) : Manifest :=
  match disk with
  | none => []
  | some md => md

/-- Embedding of `_save_index_metadata`: the manifest is wrapped with the
version / timestamp header and written out, replacing the previous file. -/
def save_index_metadata (md : Manifest) (_disk : MetaDisk) : MetaDisk :=
  some md

/-- Per-file content model: modification time, md5 digest of the current
content, size in bytes, and the parser outcome for the file. The parse
component is modelled from the spec (the `ParserService` module is absent
from the sources): parsing either yields the symbol chunks of the file or
raises, which `_parse_file` converts to `ParsingError`. -/
structure FileInfo where
  mtime : ℚ
  md5 : String
  size : Nat
  parse : Except Unit (List CodeChunk)

/-- Filesystem snapshot: `none` models a missing file (stat / open raise
`OSError`). -/
structure FS where
  files : Path → Option FileInfo

/-- Embedding of `_calculate_file_hash`: md5 of the file content, with the
`except` arm returning the empty string when the file cannot be read. -/
def calculate_file_hash (fs : FS) (p : Path) : String :=
  match fs.files p with
  | none => ""
  | some fi => fi.md5

/-- Embedding of `_needs_reindexing`. The result pairs the returned Bool
with an instrumentation flag recording whether `_calculate_file_hash` was
invoked on this call (used to state the skip law). A manifest entry that is
a bare float (as the current save paths write) makes `file_info.get` raise
`AttributeError`, which the `except OSError` clause does not catch. -/
def needs_reindexing (fs : FS) (p : Path) (metadata : Manifest) :
    Except PyExc (Bool × Bool) :=
  match lookupMeta p metadata with
  | none => .ok (true, false)
  | some (.num _) => .error .attributeError
  | some (.obj stored_mtime stored_hash) =>
    match fs.files p with
    | none => .ok (false, false)       -- os.path.getmtime raised OSError
    | some fi =>
      if fi.mtime ≤ stored_mtime then .ok (false, false)
      else .ok (calculate_file_hash fs p != stored_hash, true)

/-! ## File discovery helpers (core/indexer.py lines 375-432, 562-579) -/

/-- ASCII lowering of one character (`str.lower` restricted to the ASCII
range, which covers the extensions and stems compared against the
allow-lists). -/
def charLower (c : Char) : Char :=
  if 'A' ≤ c ∧ c ≤ 'Z' then Char.ofNat (c.toNat + 32) else c

/-- Embedding of `str.lower`. -/
def strLower (s : String) : String :=
  String.mk (s.toList.map charLower)

/-- Split of a character list at a separator (`str.split` semantics: the
empty input yields one empty group). -/
def splitOnChar (sep : Char) (cs : List Char) : List (List Char) :=
  cs.foldr
    (fun c acc =>
      match acc with
      | [] => [[c]]
      | g :: gs => if c = sep then [] :: g :: gs else (c :: g) :: gs)
    [[]]

/-- Index of the last dot in a character list, as `str.rfind`. -/
def lastDotIdx (cs : List Char) : Option Nat :=
  match cs.reverse.findIdx? (· = '.') with
  | none => none
  | some j => some (cs.length - 1 - j)

/-- Character list of the final path component (`Path.name`). -/
def pathNameChars (p : Path) : List Char :=
  (splitOnChar '/' p.toList).getLastD []

/-- Embedding of `pathlib.Path.suffix`: the extension of the final
component, empty when the only dot is leading or trailing. -/
def pathSuffix (p : Path) : String :=
  let cs := pathNameChars p
  match lastDotIdx cs with
  | none => ""
  | some i => if 0 < i ∧ i < cs.length - 1 then String.mk (cs.drop i) else ""

/-- Embedding of `pathlib.Path.stem`: the final component with its suffix
removed. -/
def pathStem (p : Path) : String :=
  let cs := pathNameChars p
  String.mk (cs.take (cs.length - (pathSuffix p).toList.length))

/-- Number of components of the project-relative path
(`path.relative_to(project_root).parts`). -/
def pathDepth (p : Path) : Nat :=
  (splitOnChar '/' p.toList).length

/-- Indexer configuration used by the embedded code paths, with the
constructor defaults from `SemanticIndexer.__init__`. -/
structure IndexerCfg where
  file_extensions : List String
  max_file_size_kb : Nat
  batch_size : Nat

/-- Constructor defaults: `.py` files only, 10 MiB size cap, batches of 8. -/
def IndexerCfg.default : IndexerCfg :=
  { file_extensions := [".py"], max_file_size_kb := 10240, batch_size := 8 }

/-- Embedding of `_should_index_file`: extension allow-list first, then
existence (`is_file`), then the size cap (`stat` raising `OSError` is the
missing-file case, already excluded). -/
def should_index_file (cfg : IndexerCfg) (fs : FS) (p : Path) : Bool :=
  if !(cfg.file_extensions.contains (strLower (pathSuffix p))) then false
  else
    match fs.files p with
    | none => false
    | some fi => decide (fi.size ≤ cfg.max_file_size_kb * 1024)

/-- External oracles of the indexer: the git status set (the `subprocess`
call of `_get_git_modified_files`) and the outcome of the n-th
`database.add_chunks` call. -/
structure IndexerOracle where
  gitModified : Path → Bool
  addChunksOk : Nat → Bool

/-- Embedding of `score_file` inside `_prioritize_files`: +1000 for
git-modified files, +500 for entry-point stems, +200 / +100 for repo depth
1 / 2, +300 for documentation extensions. -/
def score_file (oracle : IndexerOracle) (p : Path) : Nat :=
  let name := strLower (pathStem p)
  let ext := strLower (pathSuffix p)
  (if oracle.gitModified p then 1000 else 0) +
  (if ["main", "app", "index", "init", "run", "server"].contains name then 500 else 0) +
  (let depth := pathDepth p
   if depth = 1 then 200 else if depth = 2 then 100 else 0) +
  (if [".md", ".rst", ".txt"].contains ext then 300 else 0)

/-- Embedding of `_prioritize_files`: a stable sort by descending score
(Python `sorted(..., reverse=True)` keeps the original order of ties). -/
def prioritize_files (oracle : IndexerOracle) (files : List Path) : List Path :=
  files.mergeSort (fun a b => score_file oracle b ≤ score_file oracle a)

/-! ## Batch processing and index_project (core/indexer.py lines 127-339) -/

/-- Observable vector-store calls issued while indexing. -/
inductive DbOp where
  | deleteByFile (p : Path)
  | addChunks (count : Nat)
  | addChunksRaised (count : Nat)
deriving DecidableEq, Repr

/-- Accumulator threaded through the per-file loop of `_process_file_batch`:
the local manifest copy, the `success_flags` list, the accumulated
`all_chunks`, and the database call trace. -/
structure BatchAcc where
  metadata : Manifest
  success_flags : List Bool
  all_chunks : List CodeChunk
  trace : List DbOp

/-- Per-file body of the `_process_file_batch` loop. Non-indexable files get
a `True` flag with no further effect. Otherwise the old chunks are deleted
and parsing runs inside the try: a raise yields a `False` flag with the
manifest untouched; success appends the hierarchy-linked chunks (metrics
collection is a side payload not modelled here - the `MetricsService` module
is absent from the sources and does not touch manifest or flags) and writes
the bare `os.path.getmtime` float into the local manifest. -/
def processBatchFile (cfg : IndexerCfg) (fs : FS) (acc : BatchAcc) (p : Path) :
    BatchAcc :=
  if !should_index_file cfg fs p then
    { acc with success_flags := acc.success_flags ++ [true] }
  else
    let acc := { acc with trace := acc.trace ++ [DbOp.deleteByFile p] }
    match fs.files p with
    | none =>
      -- unreachable when `should_index_file` held: getmtime would raise
      { acc with success_flags := acc.success_flags ++ [false] }
    | some fi =>
      match fi.parse with
      | .error _ =>
        { acc with success_flags := acc.success_flags ++ [false] }
      | .ok chunks =>
        if chunks.isEmpty then
          { acc with
            metadata := setMeta p (.num fi.mtime) acc.metadata,
            success_flags := acc.success_flags ++ [true] }
        else
          let linked := (buildChunkHierarchy (Array.mk chunks)).toList
          { acc with
            metadata := setMeta p (.num fi.mtime) acc.metadata,
            success_flags := acc.success_flags ++ [true],
            all_chunks := acc.all_chunks ++ linked }

/-- Embedding of `_process_file_batch`: reload the manifest, run the
per-file loop, then do the single `add_chunks` insertion for the whole
batch - a raise there returns `[False] * len(file_paths)` without saving -
and finally persist the manifest. Returns the flags, the new disk state,
the appended trace and the next database call id. -/
def process_file_batch (cfg : IndexerCfg) (fs : FS) (oracle : IndexerOracle)
    (file_paths : List Path) (disk : MetaDisk) (trace : List DbOp)
    (callId : Nat) : List Bool × MetaDisk × List DbOp × Nat :=
  let md0 := load_index_metadata disk
  let acc := file_paths.foldl (processBatchFile cfg fs)
    { metadata := md0, success_flags := [], all_chunks := [], trace := trace }
  if acc.all_chunks.isEmpty then
    (acc.success_flags, save_index_metadata acc.metadata disk, acc.trace, callId)
  else if oracle.addChunksOk callId then
    (acc.success_flags, save_index_metadata acc.metadata disk,
     acc.trace ++ [.addChunks acc.all_chunks.length], callId + 1)
  else
    (file_paths.map (fun _ => false), disk,
     acc.trace ++ [.addChunksRaised acc.all_chunks.length], callId + 1)

/-- Monadic filter for
`[f for f in all_files if self._needs_reindexing(f, metadata)]`: evaluated
left to right, the first exception raised by `_needs_reindexing`
propagates. -/
def filterNeedsReindexing (fs : FS) (metadata : Manifest) :
    List Path → Except PyExc (List Path)
  | [] => .ok []
  | p :: rest => do
    let r ← needs_reindexing fs p metadata
    let tail ← filterNeedsReindexing fs metadata rest
    return if r.1 then p :: tail else tail

/-- Micro-batch slicing `files_to_index[i : i + batch_size]` of the indexing
loop, with an explicit fuel argument for termination (the fuel is the list
length; a step consumes at least one element since `batch_size >= 1` for
the configurations reachable from the constructor defaults). -/
def chunksOfAux (bs : Nat) : Nat → List α → List (List α)
  | 0, _ => []
  | _, [] => []
  | fuel + 1, x :: xs => ((x :: xs).take bs) :: chunksOfAux bs fuel ((x :: xs).drop bs)

/-- All micro-batches of size `bs`. -/
def chunksOf (bs : Nat) (xs : List α) : List (List α) :=
  chunksOfAux bs xs.length xs

/-- Final metadata loop of `index_project` (run when `indexed_count > 0`):
every file of `files_to_index` - failed ones included - has its bare
current mtime written into the start-of-run manifest copy; a missing file
(`OSError`) is skipped. -/
def finalMetadataLoop (fs : FS) (files_to_index : List Path)
    (metadata : Manifest) : Manifest :=
  files_to_index.foldl (fun md p =>
    match fs.files p with
    | none => md
    | some fi => setMeta p (.num fi.mtime) md) metadata

/-- Result of a completed `index_project` run: the returned
`indexed_count`, the internal `failed_count`, the final manifest disk
state and the database call trace. -/
structure IndexRunResult where
  indexed_count : Nat
  failed_count : Nat
  disk : MetaDisk
  trace : List DbOp
deriving Repr

/-- Embedding of `index_project` (stale-lock cleanup, heartbeat logging,
throttling sleeps and the directory-index rebuild have no effect on the
modelled state; file discovery is the `all_files` parameter, the sorted
scanner output). An empty discovery returns 0. Otherwise the manifest is
loaded and, unless forcing, filtered through `_needs_reindexing` - whose
exceptions propagate out of `index_project`. The prioritized list is
processed in micro-batches; when at least one file was indexed the final
loop overwrites the manifest entries of every selected file with its bare
mtime float and saves the start-of-run manifest copy. -/
def index_project (cfg : IndexerCfg) (fs : FS) (oracle : IndexerOracle)
    (all_files : List Path) (disk0 : MetaDisk) (force_reindex : Bool) :
    Except PyExc IndexRunResult :=
  if all_files.isEmpty then
    .ok { indexed_count := 0, failed_count := 0, disk := disk0, trace := [] }
  else do
    let metadata := load_index_metadata disk0
    let files_to_index ←
      if force_reindex then pure all_files
      else filterNeedsReindexing fs metadata all_files
    if files_to_index.isEmpty then
      return { indexed_count := 0, failed_count := 0, disk := disk0, trace := [] }
    let files_to_index := prioritize_files oracle files_to_index
    let batches := chunksOf cfg.batch_size files_to_index
    let runState := batches.foldl
      (fun (st : List Bool × MetaDisk × List DbOp × Nat) batch =>
        let r := process_file_batch cfg fs oracle batch st.2.1 st.2.2.1 st.2.2.2
        (st.1 ++ r.1, r.2))
      ([], disk0, [], 0)
    let indexed_count := runState.1.count true
    let failed_count := runState.1.count false
    if 0 < indexed_count then
      let mdFinal := finalMetadataLoop fs files_to_index metadata
      return { indexed_count := indexed_count, failed_count := failed_count,
               disk := save_index_metadata mdFinal runState.2.1,
               trace := runState.2.2.1 }
    else
      return { indexed_count := indexed_count, failed_count := failed_count,
               disk := runState.2.1, trace := runState.2.2.1 }

/-! ## Concrete fixtures used by closed theorems, witnesses and
counterexamples -/

/-- Module chunk of the one-file scenario project. -/
def chunkModA : CodeChunk :=
  { chunk_id := "m1", chunk_type := "module", function_name := none,
    class_name := none, parent_chunk_id := none, child_chunk_ids := [],
    chunk_depth := 0 }

/-- Filesystem with the single indexable file `a.py` (mtime 1, content
digest `h1`, parsing to one module chunk). -/
def fsOne : FS :=
  { files := fun p =>
      if p == "a.py" then
        some { mtime := 1, md5 := "h1", size := 10, parse := .ok [chunkModA] }
      else none }

/-- Oracle with a clean git tree and an always-succeeding vector store. -/
def oracleOk : IndexerOracle :=
  { gitModified := fun _ => false, addChunksOk := fun _ => true }

/-- Module chunk of `b.py` in the two-file scenario. -/
def chunkModB : CodeChunk :=
  { chunk_id := "m2", chunk_type := "module", function_name := none,
    class_name := none, parent_chunk_id := none, child_chunk_ids := [],
    chunk_depth := 0 }

/-- Filesystem of the failure scenario: parsing `a.py` raises, `b.py`
parses to one module chunk. -/
def fsTwo : FS :=
  { files := fun p =>
      if p == "a.py" then
        some { mtime := 5, md5 := "hA", size := 10, parse := .error () }
      else if p == "b.py" then
        some { mtime := 3, md5 := "hB", size := 10, parse := .ok [chunkModB] }
      else none }

/-- Manifest on disk before the failure scenario: a well-formed legacy
entry for `a.py` whose stored mtime 0 and hash differ from the current
file, so the file is selected for reindexing. -/
def diskTwo : MetaDisk :=
  some [("a.py", MetaVal.obj 0 "old")]

/-- Module chunk of the hierarchy scenario. -/
def chunkModM : CodeChunk :=
  { chunk_id := "M0", chunk_type := "module", function_name := none,
    class_name := none, parent_chunk_id := none, child_chunk_ids := [],
    chunk_depth := 0 }

/-- Class chunk named `C` of the hierarchy scenario (parse-produced state:
no parent, no children, depth unset). -/
def chunkClsC : CodeChunk :=
  { chunk_id := "c1", chunk_type := "class", function_name := none,
    class_name := some "C", parent_chunk_id := none, child_chunk_ids := [],
    chunk_depth := 0 }

/-- Method chunk of class `C` of the hierarchy scenario. -/
def chunkFnM : CodeChunk :=
  { chunk_id := "f1", chunk_type := "function", function_name := some "m",
    class_name := some "C", parent_chunk_id := none, child_chunk_ids := [],
    chunk_depth := 0 }

/-- Parse-produced chunk list of one file: module, class `C`, method of
`C`. -/
def hierarchyInput : Array CodeChunk :=
  #[chunkModM, chunkClsC, chunkFnM]

/-- Search result from file `a.py` with the given vector score. -/
def srA (score : ℚ) : SearchResult :=
  { file_path := "a.py", similarity_score := score, rank := 0 }

/-- Reranked candidate list with four results from one file whose
highest-scoring member (vector score 0.9) comes last in rerank order. -/
def rankedFourSameFile : List SearchResult :=
  [srA (mkRat 1 2), srA (mkRat 2 5), srA (mkRat 3 10), srA (mkRat 9 10)]

/-- File content of the skip-law witness: current mtime 2, digest `zz`. -/
def fiSkip : FileInfo :=
  { mtime := 2, md5 := "zz", size := 1, parse := .ok [] }

/-- Filesystem of the skip-law witness. -/
def fsSkip : FS :=
  { files := fun p => if p == "w.py" then some fiSkip else none }

/-- Manifest of the skip-law witness: stored mtime 3 is not older than the
current mtime 2, so the fast-skip branch applies. -/
def mdSkip : Manifest :=
  [("w.py", MetaVal.obj 3 "zz")]

/-! ## Theorems -/

/-- C8: when `search` is called without an explicit similarity threshold,
the threshold used for the vector search is `max(0.15, base - 0.05)` for a
query of fewer than 20 characters, `min(0.60, base + 0.10)` for a query of
more than 200 characters, and `base` otherwise, where the
`ScoringService` base defaults to `0.30`. -/
theorem C8_adaptive_threshold_matches_spec (base : ℚ) (query : String) :
    searchThreshold base none query = claimThresholdC8 base query ∧
    ScoringService.default.base_threshold = 3/10 :=
  ⟨rfl, rfl⟩

/-- C9: `SemanticIndexer.remove_file` never raises - it is total on every
outcome of the underlying `delete_by_file` call - returning the deleted
count on success and `0` when the call raises. -/
theorem C9_remove_file_never_raises :
    (∀ n : Nat, remove_file (.ok n) = n) ∧
    (∀ e : PyExc, remove_file (.error e) = 0) :=
  ⟨fun _ => rfl, fun _ => rfl⟩

/-- C10: the first `get_global_reranker` call creates the process-global
reranker bound to the model name passed then and stores it; every call made
while the global is set returns the stored instance unchanged, ignoring
the model-name argument, so a second call still observes the first model
name. -/
theorem C10_global_reranker_first_call_wins :
    (∀ n1 : Option String,
      (get_global_reranker n1 none).1.model_name = n1 ∧
      (get_global_reranker n1 none).2 = some (get_global_reranker n1 none).1) ∧
    (∀ (n2 : Option String) (r : LazyHFReRanker),
      get_global_reranker n2 (some r) = (r, some r)) ∧
    (∀ n1 n2 : Option String,
      (get_global_reranker n2 (get_global_reranker n1 none).2).1.model_name = n1) :=
  ⟨fun _ => ⟨rfl, rfl⟩, fun _ _ => rfl, fun _ _ => rfl⟩

/-- C5: after any `_add_chunks_with_limits` call - whether the underlying
`add_chunks` calls return normally or raise - every thread-budget
environment variable holds exactly the value it had before the call, and a
variable unset before is unset after. -/
theorem C5_thread_budget_env_restored (onnx ebs : Option Nat)
    (chunks : List CodeChunk) (dbAdd : Nat → Except PyExc Unit)
    (env : EnvMap) (v : TVar) :
    (add_chunks_with_limits onnx ebs chunks dbAdd env).2 v = env v := by
  unfold add_chunks_with_limits
  by_cases h : chunks.isEmpty
  · simp [h]
  · simp only [h, Bool.false_eq_true, if_false,
      restore_onnx_thread_limits, apply_onnx_thread_limits]
    cases env v <;> rfl

unseal List.merge List.mergeSort in
/-- C1: running `index_project` twice with no source change is claimed
idempotent with 0 files indexed on the second run; instead the first run
persists bare mtime floats as manifest entries, and the second run raises
`AttributeError` inside `_needs_reindexing` (a float has no `.get`, and
only `OSError` is caught), so the second run never reaches the skip path. -/
theorem C1_second_run_raises_attribute_error :
    index_project IndexerCfg.default fsOne oracleOk ["a.py"] none false =
      .ok { indexed_count := 1, failed_count := 0,
            disk := some [("a.py", MetaVal.num 1)],
            trace := [.deleteByFile "a.py", .addChunks 1] } ∧
    index_project IndexerCfg.default fsOne oracleOk ["a.py"]
      (some [("a.py", MetaVal.num 1)]) false = .error .attributeError :=
  ⟨rfl, rfl⟩

unseal List.merge List.mergeSort in
/-- C2: the manifest entry written for a successfully indexed file is
claimed to record the mtime together with the md5 of the content; the run
instead stores the bare `os.path.getmtime` float (`MetaVal.num`), which is
never an `{mtime, hash}` object, so no hash - in particular not the
content digest `h1` - is recorded. -/
theorem C2_manifest_entry_records_no_hash :
    (∃ r, index_project IndexerCfg.default fsOne oracleOk ["a.py"] none false =
        .ok r ∧
      lookupMeta "a.py" (load_index_metadata r.disk) = some (MetaVal.num 1)) ∧
    (fsOne.files "a.py").map (fun fi => fi.md5) = some "h1" ∧
    (∀ mt hh, MetaVal.num 1 ≠ MetaVal.obj mt hh) :=
  ⟨⟨{ indexed_count := 1, failed_count := 0,
      disk := some [("a.py", MetaVal.num 1)],
      trace := [.deleteByFile "a.py", .addChunks 1] }, rfl, rfl⟩,
   rfl, fun _ _ h => MetaVal.noConfusion h⟩

unseal List.merge List.mergeSort in
/-- C4: with `a.py` raising at parse and `b.py` parsing cleanly, the run
counts one failed and one indexed file and the batch continues past the
failure (the `add_chunks` insertion for `b.py` happens); but the completion
loop of `index_project` then overwrites the manifest entry of the failed
`a.py` - previously `{mtime: 0, hash: "old"}` - with its bare current
mtime, so the failed file's manifest entry does not survive the run
unchanged. -/
theorem C4_failed_file_manifest_entry_overwritten :
    index_project IndexerCfg.default fsTwo oracleOk ["a.py", "b.py"] diskTwo false =
      .ok { indexed_count := 1, failed_count := 1,
            disk := some [("a.py", MetaVal.num 5), ("b.py", MetaVal.num 3)],
            trace := [.deleteByFile "a.py", .deleteByFile "b.py", .addChunks 1] } ∧
    lookupMeta "a.py" (load_index_metadata diskTwo) = some (MetaVal.obj 0 "old") ∧
    MetaVal.num 5 ≠ MetaVal.obj 0 "old" :=
  ⟨rfl, rfl, fun h => MetaVal.noConfusion h⟩

unseal List.merge List.mergeSort in
/-- C6: on the parse-produced chunks module / class `C` / method of `C`,
`_build_chunk_hierarchy` does set the method's parent to the class chunk
and register it exactly once in the class child list, but the method's
final `chunk_depth` is 1 - equal to its parent's final depth, not parent
plus one - because class depths are assigned only after the functions are
linked. -/
theorem C6_hierarchy_method_depth_not_parent_plus_one :
    buildChunkHierarchy hierarchyInput =
      #[{ chunkModM with child_chunk_ids := ["c1"] },
        { chunkClsC with parent_chunk_id := some "M0",
                         child_chunk_ids := ["f1"], chunk_depth := 1 },
        { chunkFnM with parent_chunk_id := some "c1", chunk_depth := 1 }] ∧
    ((buildChunkHierarchy hierarchyInput).getD 2 default).parent_chunk_id =
      some ((buildChunkHierarchy hierarchyInput).getD 1 default).chunk_id ∧
    ((buildChunkHierarchy hierarchyInput).getD 1 default).child_chunk_ids.count
      ((buildChunkHierarchy hierarchyInput).getD 2 default).chunk_id = 1 ∧
    ¬ ((buildChunkHierarchy hierarchyInput).getD 2 default).chunk_depth =
        ((buildChunkHierarchy hierarchyInput).getD 1 default).chunk_depth + 1 := by
  refine ⟨rfl, rfl, rfl, ?_⟩
  decide

unseal List.merge List.mergeSort in
/-- C7 counterexample: four reranked candidates from one file with the
highest vector score (0.9) last in rerank order; the diversity cap keeps
the first three in rerank order, so the returned list has three results of
the file, none of which is the highest-scoring candidate. -/
theorem C7_counterexample_highest_score_dropped :
    rankedFourSameFile.countP (fun r => r.file_path == "a.py") = 4 ∧
    srA (mkRat 9 10) ∈ rankedFourSameFile ∧
    searchTail rankedFourSameFile =
      [{ file_path := "a.py", similarity_score := mkRat 1 2, rank := 1 },
       { file_path := "a.py", similarity_score := mkRat 2 5, rank := 2 },
       { file_path := "a.py", similarity_score := mkRat 3 10, rank := 3 }] ∧
    (∀ r ∈ searchTail rankedFourSameFile, r.similarity_score < mkRat 9 10) := by
  refine ⟨rfl, ?_, rfl, ?_⟩ <;> decide

/-- C3: for an existing file and a manifest whose entry for the path, if
present, is a well-formed `{mtime, hash}` object, `_needs_reindexing`
returns without raising; it returns true exactly when the path is absent
from the manifest or the current mtime is strictly newer than the stored
one and the current content digest differs from the stored hash; and when
the current mtime is not newer it returns false without computing any
content hash. -/
theorem C3_needs_reindexing_iff (fs : FS) (p : Path) (md : Manifest)
    (fi : FileInfo) (hfi : fs.files p = some fi)
    (hwf : ∀ v, lookupMeta p md = some v → ∃ m h, v = MetaVal.obj m h) :
    ∃ b hashed, needs_reindexing fs p md = .ok (b, hashed) ∧
      (b = true ↔ (lookupMeta p md = none ∨
        ∃ m h, lookupMeta p md = some (MetaVal.obj m h) ∧
          m < fi.mtime ∧ fi.md5 ≠ h)) ∧
      (∀ m h, lookupMeta p md = some (MetaVal.obj m h) → fi.mtime ≤ m →
        b = false ∧ hashed = false) := by
  unfold needs_reindexing
  cases hl : lookupMeta p md with
  | none =>
    refine ⟨true, false, rfl, by simp, ?_⟩
    intro m h hmh _
    cases hmh
  | some v =>
    obtain ⟨m, h, rfl⟩ := hwf v hl
    rw [hfi]
    by_cases hle : fi.mtime ≤ m
    · refine ⟨false, false, by simp [hle], ?_, ?_⟩
      · simp only [Bool.false_eq_true, false_iff]
        rintro (hnone | ⟨m1, h1, heq, hlt, _⟩)
        · cases hnone
        · cases heq
          exact absurd hle (not_le.mpr hlt)
      · intro m1 h1 _ _
        exact ⟨rfl, rfl⟩
    · refine ⟨calculate_file_hash fs p != h, true, by simp [hle], ?_, ?_⟩
      · unfold calculate_file_hash
        rw [hfi]
        simp only [bne_iff_ne, ne_eq]
        constructor
        · intro hne
          exact Or.inr ⟨m, h, rfl, not_le.mp hle, hne⟩
        · rintro (hnone | ⟨m1, h1, heq, _, hne⟩)
          · cases hnone
          · cases heq
            exact hne
      · intro m1 h1 heq hle1
        cases heq
        exact absurd hle1 hle

/-- Witness for C3 at a concrete input: the file `w.py` exists with mtime 2
while the manifest stores mtime 3 and the same digest, so the fast-skip
branch returns false without hashing. -/
theorem C3_needs_reindexing_iff_witness :
    (fsSkip.files "w.py" = some fiSkip) ∧
    (∃ b hashed, needs_reindexing fsSkip "w.py" mdSkip = .ok (b, hashed) ∧
      (b = true ↔ (lookupMeta "w.py" mdSkip = none ∨
        ∃ m h, lookupMeta "w.py" mdSkip = some (MetaVal.obj m h) ∧
          m < fiSkip.mtime ∧ fiSkip.md5 ≠ h)) ∧
      (∀ m h, lookupMeta "w.py" mdSkip = some (MetaVal.obj m h) →
        fiSkip.mtime ≤ m → b = false ∧ hashed = false)) :=
  ⟨rfl, C3_needs_reindexing_iff fsSkip "w.py" mdSkip fiSkip rfl
    (fun _v hv => ⟨3, "zz", (Option.some.inj hv).symm⟩)⟩

/-- The sub-list of one file surviving the diversity loop is the prefix of
that file's candidates of length `3 - counts p`. -/
theorem diversityLoop_per_file (p : Path) :
    ∀ (rs acc : List SearchResult) (counts : Path → Nat),
      (diversityLoop acc counts rs).filter (fun r => r.file_path == p) =
        acc.filter (fun r => r.file_path == p) ++
          ((rs.filter (fun r => r.file_path == p)).take (3 - counts p)) := by
  intro rs
  induction rs with
  | nil => intro acc counts; simp [diversityLoop]
  | cons r rest ih =>
    intro acc counts
    unfold diversityLoop
    by_cases hc : counts r.file_path < 3
    · rw [if_pos hc, ih]
      by_cases hp : r.file_path = p
      · have hif : (if p = r.file_path then counts r.file_path + 1
            else counts p) = counts p + 1 := by
          rw [if_pos hp.symm, hp]
        have hcp : counts p < 3 := hp ▸ hc
        have h3 : 3 - counts p = (3 - (counts p + 1)) + 1 := by omega
        rw [hif, List.filter_append, List.filter_cons_of_pos (by simp [hp]),
          List.filter_nil, List.filter_cons_of_pos (by simp [hp]), h3,
          List.take_succ_cons, List.append_assoc, List.singleton_append]
      · have hif : (if p = r.file_path then counts r.file_path + 1
            else counts p) = counts p := by
          rw [if_neg (fun hq => hp hq.symm)]
        rw [hif, List.filter_append, List.filter_cons_of_neg (by simp [hp]),
          List.filter_nil, List.append_nil, List.filter_cons_of_neg (by simp [hp])]
    · rw [if_neg hc, ih]
      by_cases hp : r.file_path = p
      · have h0 : 3 - counts p = 0 := by
          have := hp ▸ hc
          omega
        rw [h0]
        simp
      · rw [List.filter_cons_of_neg (by simp [hp])]

/-- Per-file content of the diversity cap: exactly the first three
candidates of the file, in ranked order. -/
theorem diversityFilter_per_file (rs : List SearchResult) (p : Path) :
    (diversityFilter rs).filter (fun r => r.file_path == p) =
      (rs.filter (fun r => r.file_path == p)).take 3 := by
  unfold diversityFilter
  rw [diversityLoop_per_file]
  simp

/-- Rank assignment does not change which file a result belongs to. -/
theorem assignRanksFrom_countP (p : Path) (i : Nat) (l : List SearchResult) :
    (assignRanksFrom i l).countP (fun r => r.file_path == p) =
      l.countP (fun r => r.file_path == p) := by
  induction l generalizing i with
  | nil => rfl
  | cons r rest ih => simp [assignRanksFrom, List.countP_cons, ih]

/-- C7 (amended): every list returned by the search tail has at most 3
results of any single file, and when a file has more than 3 candidates the
3 kept by the diversity cap are the first 3 of that file in the reranked
order - not necessarily the highest-scoring by similarity score. -/
theorem C7_amended_diversity_cap (ranked_results : List SearchResult) (p : Path) :
    (searchTail ranked_results).countP (fun r => r.file_path == p) ≤ 3 ∧
    (diversityFilter ranked_results).filter (fun r => r.file_path == p) =
      (ranked_results.filter (fun r => r.file_path == p)).take 3 := by
  refine ⟨?_, diversityFilter_per_file ranked_results p⟩
  unfold searchTail
  rw [assignRanksFrom_countP, (List.mergeSort_perm _ _).countP_eq,
    List.countP_eq_length_filter, diversityFilter_per_file]
  exact (List.length_take_le _ _).trans (le_refl 3)

end MCI
